import Mathlib

/-!
Verification of the leak-localization core against its natural-language
specification.  The TypeScript services are shallowly embedded: persistence
queries become lookups over explicit in-memory stores, JS numbers become
rationals (reals only where a square root is taken), timestamps become
integers (milliseconds), and thrown exceptions become `Except` values.
-/

set_option autoImplicit false

namespace LeakLoc

/-- Node roles, from the Prisma `NodeType` enum. -/
inductive NodeType where
  | MAINLINE
  | BRANCH
  | JUNCTION
  | HOUSEHOLD
  deriving DecidableEq, Repr

/-- Sensor kinds, from the Prisma `SensorType` enum. -/
inductive SensorType where
  | MAINLINE_FLOW
  | BRANCH_JUNCTION_FLOW
  | HOUSEHOLD_FLOW
  deriving DecidableEq, Repr

/-- Detection severities, from the Prisma `LeakSeverity` enum. -/
inductive LeakSeverity where
  | LOW
  | MEDIUM
  | HIGH
  | CRITICAL
  deriving DecidableEq, Repr

/-- Detection lifecycle states, from the Prisma `LeakStatus` enum. -/
inductive LeakStatus where
  | DETECTED
  | CONFIRMED
  | LOCALIZED
  | RESOLVED
  | FALSE_POSITIVE
  deriving DecidableEq, Repr

/-- A flow sensor row (`Sensor` model): `id` is the row UUID, `sensorId`
the user-facing label. -/
structure Sensor where
  id : String
  sensorId : String
  sensorType : SensorType
  isActive : Bool
  deriving DecidableEq, Repr

/-- A network node row (`NetworkNode` model) together with its attached
sensors, as the services fetch it via `include: { sensors: ... }`. -/
structure NetworkNode where
  id : String
  nodeId : String
  nodeType : NodeType
  parentId : Option String
  sensors : List Sensor
  deriving DecidableEq, Repr

/-- A sensor reading row (`SensorReading` model); `sensorId` references
`Sensor.id` and `timestamp` is in milliseconds. -/
structure SensorReading where
  sensorId : String
  flowValue : ℚ
  timestamp : ℤ
  deriving DecidableEq, Repr

/-- The slice of the persistence layer the mass-balance and topology
services read: node rows and reading rows. -/
structure Store where
  nodes : List NetworkNode
  readings : List SensorReading
  deriving Repr

/-- `prisma.networkNode.findUnique({ where: { id } })`. -/
def findNode (store : Store) (nodeId : String) : Option NetworkNode :=
  store.nodes.find? (fun n => n.id == nodeId)

/-- The `children` relation: nodes whose `parentId` is the given id. -/
def childrenOf (store : Store) (nodeId : String) : List NetworkNode :=
  store.nodes.filter (fun n => n.parentId == some nodeId)

/-- The `where: { isActive: true }` filter on a node's sensors. -/
def activeSensors (n : NetworkNode) : List Sensor :=
  n.sensors.filter (fun s => s.isActive)

/-- Keeps the later reading when it is strictly newer; `findFirst` with
`orderBy: { timestamp: desc }` resolves equal timestamps to the first row,
which the fold reproduces by keeping the earlier list element on ties. -/
def laterReading (acc : Option SensorReading) (r : SensorReading) : Option SensorReading :=
  match acc with
  | none => some r
  | some b => if b.timestamp < r.timestamp then some r else some b

/-- `MassBalanceService.getLatestReadingForSensor`: the latest reading at
or before `timestamp`, with no lower bound on how old it may be. -/
def getLatestReadingForSensor (readings : List SensorReading) (sensorId : String)
    (timestamp : ℤ) : Option ℚ :=
  ((readings.filter fun r =>
      r.sensorId == sensorId && decide (r.timestamp ≤ timestamp)).foldl
    laterReading none).map (fun r => r.flowValue)

/-- `MassBalanceService.getAggregatedReadingForSensor`: the arithmetic mean
of the readings in `[timestamp - window, timestamp]`, or `null` when the
window holds none.  `timeWindowSeconds` is converted to milliseconds. -/
def getAggregatedReadingForSensor (readings : List SensorReading) (sensorId : String)
    (timestamp : ℤ) (timeWindowSeconds : ℤ) : Option ℚ :=
  let startTime := timestamp - timeWindowSeconds * 1000
  let rs := readings.filter fun r =>
    r.sensorId == sensorId && decide (startTime ≤ r.timestamp) && decide (r.timestamp ≤ timestamp)
  if rs.isEmpty then none
  else some ((rs.map (fun r => r.flowValue)).sum / rs.length)

/-- `MassBalanceService.getInflowForNode`: sums, over the active sensors of
the node's parent, the latest reading at or before `timestamp`; sensors
with no reading contribute nothing. -/
def getInflowForNode (store : Store) (nodeId : String) (timestamp : ℤ) : ℚ :=
  match findNode store nodeId with
  | none => 0
  | some node =>
    match node.parentId.bind (findNode store) with
    | none => 0
    | some parent =>
      (activeSensors parent).foldl
        (fun acc s =>
          match getLatestReadingForSensor store.readings s.id timestamp with
          | none => acc
          | some v => acc + v) 0

/-- `MassBalanceService.getOutflowForNode`: sums the latest readings of the
active sensors of every child of the node. -/
def getOutflowForNode (store : Store) (nodeId : String) (timestamp : ℤ) : ℚ :=
  match findNode store nodeId with
  | none => 0
  | some _ =>
    (childrenOf store nodeId).foldl
      (fun acc child =>
        (activeSensors child).foldl
          (fun acc2 s =>
            match getLatestReadingForSensor store.readings s.id timestamp with
            | none => acc2
            | some v => acc2 + v) acc) 0

/-- The fields of `MassBalanceResult` the detection path consumes. -/
structure MassBalanceResult where
  nodeId : String
  inflow : ℚ
  outflow : ℚ
  imbalance : ℚ
  deriving DecidableEq, Repr

/-- `MassBalanceService.calculateMassBalance` for a node scope: fails when
the node is unknown, otherwise reports inflow, outflow and their
difference.  Note it takes no time window. -/
def calculateMassBalance (store : Store) (nodeId : String) (timestamp : ℤ) :
    Except String MassBalanceResult :=
  match findNode store nodeId with
  | none => .error "node not found"
  | some _ =>
    let inflow := getInflowForNode store nodeId timestamp
    let outflow := getOutflowForNode store nodeId timestamp
    .ok { nodeId := nodeId, inflow := inflow, outflow := outflow,
          imbalance := inflow - outflow }

/-- Modelled from the spec (aggregation rule of section 4.E): the windowed
node inflow the specification prescribes, where each active sensor on the
parent contributes the arithmetic mean of its readings over
`[T - W, T]` and sensors with an empty window contribute nothing. -/
def specInflowWindowed (store : Store) (nodeId : String) (timestamp : ℤ)
    (timeWindowSeconds : ℤ) : ℚ :=
  match findNode store nodeId with
  | none => 0
  | some node =>
    match node.parentId.bind (findNode store) with
    | none => 0
    | some parent =>
      ((activeSensors parent).map (fun s =>
        (getAggregatedReadingForSensor store.readings s.id timestamp
          timeWindowSeconds).getD 0)).sum

/-- The latest-reading contribution of one sensor, as a clean sum term. -/
def latestContribution (store : Store) (timestamp : ℤ) (s : Sensor) : ℚ :=
  (getLatestReadingForSensor store.readings s.id timestamp).getD 0

/-- The node imbalance restated as plain sums of latest readings: parent
sensors minus child sensors, each contributing its latest reading at or
before `T` with no window restriction. -/
def specNodeImbalanceLatest (store : Store) (nodeId : String) (timestamp : ℤ) : ℚ :=
  let inflow :=
    match (findNode store nodeId).bind (fun n => n.parentId.bind (findNode store)) with
    | none => 0
    | some parent =>
      ((activeSensors parent).map (latestContribution store timestamp)).sum
  let outflow :=
    match findNode store nodeId with
    | none => 0
    | some _ =>
      ((childrenOf store nodeId).map (fun child =>
        ((activeSensors child).map (latestContribution store timestamp)).sum)).sum
  inflow - outflow

/-- `LeaksService.DEFAULT_THRESHOLD` (L/s). -/
def DEFAULT_THRESHOLD : ℚ := 5

/-- `LeaksService.DEFAULT_TIME_WINDOW` (seconds). -/
def DEFAULT_TIME_WINDOW : ℕ := 300

/-- The fields of a persisted `LeakDetection` row the claims speak about. -/
structure LeakDetection where
  nodeId : String
  flowImbalance : ℚ
  severity : LeakSeverity
  status : LeakStatus
  timestamp : ℤ
  timeWindow : Option ℕ
  threshold : ℚ
  deriving DecidableEq, Repr

/-- `LeaksService.determineSeverity`. -/
def determineSeverity (imbalance : ℚ) : LeakSeverity :=
  if imbalance > 50 then .CRITICAL
  else if imbalance > 20 then .HIGH
  else if imbalance > 10 then .MEDIUM
  else .LOW

/-- `LeaksService.detectLeakAtNode`: computes the mass balance, returns
nothing when the imbalance is at most the threshold, and otherwise persists
a `DETECTED` row whose severity comes from `determineSeverity`. -/
def detectLeakAtNode (store : Store) (nodeId : String) (timestamp : ℤ)
    (threshold : ℚ) (timeWindow : Option ℕ) :
    Except String (Option LeakDetection) :=
  match calculateMassBalance store nodeId timestamp with
  | .error e => .error e
  | .ok massBalance =>
    if massBalance.imbalance ≤ threshold then .ok none
    else
      .ok (some
        { nodeId := nodeId
          flowImbalance := massBalance.imbalance
          severity := determineSeverity massBalance.imbalance
          status := .DETECTED
          timestamp := timestamp
          timeWindow := timeWindow
          threshold := threshold })

/-- What `LocalizationService.localizeLeakForDetection` hands back to the
callers in `LeaksService` (the fields they consume). -/
structure LocalizationOutcome where
  localizedNodeId : String
  localizationScore : ℚ
  candidateNodes : List (String × ℚ)
  deriving DecidableEq, Repr

/-- A stored `LeakDetection` row as `localizeLeak` reads and updates it. -/
structure DetectionRow where
  id : String
  status : LeakStatus
  flowImbalance : ℚ
  localizedNodeId : Option String
  localizationScore : Option ℚ
  localizedAt : Option ℤ
  deriving DecidableEq, Repr

/-- `LeaksService.localizeLeak`: looks the detection up, rejects any status
other than `DETECTED`, runs localization (an oracle here, since its outcome
depends on readings and the matrix), and only on success writes back the
localized fields and the `LOCALIZED` status.  The returned list is the
detection table after the call; every error path leaves it untouched. -/
def localizeLeak (db : List DetectionRow)
    (localization : DetectionRow → Except String LocalizationOutcome)
    (detectionId : String) (now : ℤ) :
    Except String DetectionRow × List DetectionRow :=
  match db.find? (fun d => d.id == detectionId) with
  | none => (.error "detection not found", db)
  | some detection =>
    if detection.status ≠ .DETECTED then
      (.error "not in DETECTED status", db)
    else
      match localization detection with
      | .error e => (.error e, db)
      | .ok result =>
        let updated : DetectionRow :=
          { detection with
            localizedNodeId := some result.localizedNodeId
            localizationScore := some result.localizationScore
            localizedAt := some now
            status := .LOCALIZED }
        (.ok updated,
          db.map (fun d => if d.id == detectionId then updated else d))

/-- One detection entry of the `analyzeLeaks` report: the detection plus an
optional localization block. -/
structure AnalyzeEntry where
  detectionId : String
  severity : LeakSeverity
  localization : Option LocalizationOutcome
  deriving DecidableEq, Repr

/-- The running report state of the per-detection loop in
`LeaksService.analyzeLeaks`. -/
structure AnalyzeLoopState where
  entries : List AnalyzeEntry
  localizedCount : ℕ
  calls : List (String × ℕ)
  deriving DecidableEq, Repr

/-- A detection as the analyze loop sees it. -/
structure AnalyzeDetection where
  id : String
  severity : LeakSeverity
  deriving DecidableEq, Repr

/-- One iteration of the per-detection loop of `LeaksService.analyzeLeaks`:
the detection is localized via
`this.localizeLeak(detection.id, this.DEFAULT_TIME_WINDOW)`; a failure is
caught and the detection is reported without a localization block.
`calls` records every `(detectionId, baselineTimeWindow)` argument pair
passed to `localizeLeak`. -/
def analyzeStep (localizeOutcome : String → ℕ → Except String LocalizationOutcome)
    (st : AnalyzeLoopState) (d : AnalyzeDetection) : AnalyzeLoopState :=
  let call := (d.id, DEFAULT_TIME_WINDOW)
  match localizeOutcome d.id DEFAULT_TIME_WINDOW with
  | .ok result =>
    { entries := st.entries ++
        [{ detectionId := d.id, severity := d.severity,
           localization := some result }]
      localizedCount := st.localizedCount + 1
      calls := st.calls ++ [call] }
  | .error _ =>
    { entries := st.entries ++
        [{ detectionId := d.id, severity := d.severity,
           localization := none }]
      localizedCount := st.localizedCount
      calls := st.calls ++ [call] }

/-- The per-detection loop of `LeaksService.analyzeLeaks` over all
detections of one analysis. -/
def analyzeDetectionLoop
    (localizeOutcome : String → ℕ → Except String LocalizationOutcome)
    (detections : List AnalyzeDetection) : AnalyzeLoopState :=
  detections.foldl (analyzeStep localizeOutcome)
    { entries := [], localizedCount := 0, calls := [] }

/-- The report entry one detection produces: with a localization block on
success, without one when the caught failure path runs. -/
def analyzeEntryFor (localizeOutcome : String → ℕ → Except String LocalizationOutcome)
    (d : AnalyzeDetection) : AnalyzeEntry :=
  match localizeOutcome d.id DEFAULT_TIME_WINDOW with
  | .ok result =>
    { detectionId := d.id, severity := d.severity, localization := some result }
  | .error _ =>
    { detectionId := d.id, severity := d.severity, localization := none }

/-- The hydraulic engine state the leak-perturbation helper mutates: the
base demand of each node, indexed the way EPANET indexes nodes. -/
structure EngineState where
  baseDemand : ℤ → ℚ

/-- `project.setNodeValue(idx, BaseDemand, v)`. -/
def setBaseDemand (st : EngineState) (idx : ℤ) (v : ℚ) : EngineState :=
  { baseDemand := fun i => if i = idx then v else st.baseDemand i }

/-- `EpanetSimulationService.runLeakSimulation`.  `nodeIndexOf` models
`project.getNodeIndex` (nonpositive meaning not found); `solve` models
`project.solveH` plus the demand reads, returning `none` on solve failure
or timeout and otherwise the computed demand per node index.  The `finally`
block restores the original base demand whenever the index was resolved. -/
def runLeakSimulation (nodeIndexOf : String → ℤ)
    (solve : EngineState → Option (ℤ → ℚ)) (st : EngineState)
    (leakNodeId : String) (leakSize : ℚ) (sensorNodeIds : List String) :
    Except String (List (String × ℚ)) × EngineState :=
  if leakSize ≤ 0 then
    (.error "invalid leak size", st)
  else
    let nodeIndex := nodeIndexOf leakNodeId
    if nodeIndex ≤ 0 then
      (.error "leak node not found", st)
    else
      let originalBaseDemand := st.baseDemand nodeIndex
      let newBaseDemand := originalBaseDemand + leakSize
      let st1 := setBaseDemand st nodeIndex newBaseDemand
      match solve st1 with
      | none =>
        (.error "simulation failed", setBaseDemand st1 nodeIndex originalBaseDemand)
      | some demand =>
        let results := sensorNodeIds.map (fun sensorNodeId =>
          let sensorNodeIndex := nodeIndexOf sensorNodeId
          if sensorNodeIndex ≤ 0 then (sensorNodeId, (0 : ℚ))
          else (sensorNodeId, demand sensorNodeIndex))
        (.ok results, setBaseDemand st1 nodeIndex originalBaseDemand)

/-- `SensitivityMatrixService.LEAK_SIZE`: the unit leak, in L/s. -/
def LEAK_SIZE : ℚ := 1

/-- A candidate leak node as the matrix build queries it (the query keeps
only rows whose `epanetNodeId` is not null, so the option is set on every
row the build actually sees). -/
structure MatrixNode where
  id : String
  epanetNodeId : Option String
  deriving DecidableEq, Repr

/-- An active sensor as the matrix build queries it, with its host node's
EPANET tag. -/
structure MatrixSensor where
  id : String
  nodeEpanetId : Option String
  deriving DecidableEq, Repr

/-- A `SensitivityMatrix` row. -/
structure SensitivityEntry where
  networkId : String
  leakNodeId : String
  sensorId : String
  sensitivityValue : ℚ
  deriving DecidableEq, Repr

/-- `EpanetSimulationService.calculateSensitivity`: per baseline sensor,
`(withLeak − baseline) / leakSize`, or `0` when the leak size is not
positive; missing leak readings count as `0`. -/
def calculateSensitivity (baseline : List (String × ℚ)) (withLeak : List (String × ℚ))
    (leakSize : ℚ) : List (String × ℚ) :=
  baseline.map (fun p =>
    let change := ((withLeak.lookup p.1).getD 0) - p.2
    (p.1, if leakSize > 0 then change / leakSize else 0))

/-- The per-candidate body of `generateMatrixAsync`: run the leak
simulation (an oracle keyed by the candidate's EPANET id; `error` is the
caught-and-skipped branch contributing no rows), derive sensitivities, and
push one row per sensor whose host node carries an EPANET tag. -/
def entriesForCandidate (networkId : String) (baseline : List (String × ℚ))
    (sensors : List MatrixSensor)
    (simOutcome : String → Except String (List (String × ℚ)))
    (node : MatrixNode) : List SensitivityEntry :=
  match node.epanetNodeId with
  | none => []
  | some epanetId =>
    match simOutcome epanetId with
    | .error _ => []
    | .ok leakResults =>
      let sensitivity := calculateSensitivity baseline leakResults LEAK_SIZE
      sensors.filterMap (fun sensor =>
        sensor.nodeEpanetId.map (fun sensorEpanetId =>
          { networkId := networkId
            leakNodeId := node.id
            sensorId := sensor.id
            sensitivityValue := (sensitivity.lookup sensorEpanetId).getD 0 }))

/-- All rows produced by one matrix build over the candidate set. -/
def generateAllEntries (networkId : String) (baseline : List (String × ℚ))
    (sensors : List MatrixSensor)
    (simOutcome : String → Except String (List (String × ℚ)))
    (nodes : List MatrixNode) : List SensitivityEntry :=
  nodes.flatMap (entriesForCandidate networkId baseline sensors simOutcome)

/-- The row count after `createMany({ skipDuplicates: true })` into an
empty table with unique key `(networkId, leakNodeId, sensorId)`: distinct
keys among the produced rows. -/
def persistedEntryCount (entries : List SensitivityEntry) : ℕ :=
  ((entries.map (fun e => (e.leakNodeId, e.sensorId))).dedup).length

/-- Whether the build attempt for a candidate succeeded (its leak
simulation did not throw). -/
def candidateSucceeded (simOutcome : String → Except String (List (String × ℚ)))
    (node : MatrixNode) : Bool :=
  match node.epanetNodeId with
  | none => false
  | some epanetId =>
    match simOutcome epanetId with
    | .error _ => false
    | .ok _ => true

/-- `NetworkService.findMainlineForNode`: the Prisma query nests
`include: parent` three levels deep, so the walk sees the node, its parent,
grandparent and great-grandparent and nothing beyond. -/
def findMainlineForNode (store : Store) (nodeId : String) : Option String :=
  match findNode store nodeId with
  | none => none
  | some node =>
    let p1 := node.parentId.bind (findNode store)
    let p2 := p1.bind (fun n => n.parentId.bind (findNode store))
    let p3 := p2.bind (fun n => n.parentId.bind (findNode store))
    let chain := node :: ([p1, p2, p3].filterMap id)
    (chain.find? (fun n => n.nodeType == .MAINLINE)).map (fun n => n.id)

/-- The node reached after following `k` parent links from `nodeId`
(`some` only when every link on the way resolves). -/
def parentChainNth (store : Store) (nodeId : String) : ℕ → Option String
  | 0 => (findNode store nodeId).map (fun n => n.id)
  | k + 1 =>
    ((findNode store nodeId).bind (fun n => n.parentId)).bind
      (fun p => parentChainNth store p k)

/-- The nearest `MAINLINE` in the inclusive parent chain of `nodeId`,
looking at most `fuel` nodes deep (the node itself is depth one). -/
def specMainlineWithin (store : Store) : String → ℕ → Option String
  | _, 0 => none
  | nodeId, fuel + 1 =>
    match findNode store nodeId with
    | none => none
    | some n =>
      if n.nodeType = .MAINLINE then some n.id
      else n.parentId.bind (fun p => specMainlineWithin store p fuel)

/-- A DMA row (`NetworkPartition` model). -/
structure NetworkPartition where
  id : String
  mainlineId : String
  deriving DecidableEq, Repr

/-- A store slice for the topology service: nodes plus partitions. -/
structure TopoStore where
  nodes : List NetworkNode
  partitions : List NetworkPartition
  deriving Repr

/-- The child ids the BFS fetches for a node: empty when the node row is
absent (the `findUnique` returned null), else the ids of the rows whose
`parentId` points at it. -/
def childIds (store : TopoStore) (nodeId : String) : List String :=
  match store.nodes.find? (fun n => n.id == nodeId) with
  | none => []
  | some _ =>
    ((store.nodes.filter (fun n => n.parentId == some nodeId)).map (fun n => n.id))

/-- The finite universe the BFS moves in: the queued start id and every
node id of the store. -/
def bfsUniv (store : TopoStore) (start : String) : Finset String :=
  insert start (store.nodes.map (fun n => n.id)).toFinset

theorem childIds_mem_univ (store : TopoStore) (start x c : String)
    (hc : c ∈ childIds store x) : c ∈ bfsUniv store start := by
  unfold childIds at hc
  cases hfind : store.nodes.find? (fun n => n.id == x) with
  | none => simp [hfind] at hc
  | some n =>
    rw [hfind] at hc
    simp only [List.mem_map, List.mem_filter] at hc
    obtain ⟨m, ⟨hm, _⟩, rfl⟩ := hc
    unfold bfsUniv
    exact Finset.mem_insert_of_mem (by simp [List.mem_toFinset, List.mem_map]; exact ⟨m, hm, rfl⟩)

/-- The BFS loop of `NetworkService.getNodeIdsInDma`: pop the queue, skip
already-visited ids, otherwise record the id and enqueue its not-yet-seen
children.  The visited set makes revisits impossible, so the loop
terminates on any graph, cyclic or not. -/
def bfsCollect (store : TopoStore) (start : String)
    (visited : Finset String) (queue : List String)
    (hq : ∀ x ∈ queue, x ∈ bfsUniv store start) : Finset String :=
  match queue with
  | [] => visited
  | currentId :: rest =>
    if h : currentId ∈ visited then
      bfsCollect store start visited rest
        (fun x hx => hq x (List.mem_cons_of_mem _ hx))
    else
      let visited1 := insert currentId visited
      let fresh := (childIds store currentId).filter (fun c => !(decide (c ∈ visited1)))
      bfsCollect store start visited1 (rest ++ fresh)
        (by
          intro x hx
          rcases List.mem_append.mp hx with hx | hx
          · exact hq x (List.mem_cons_of_mem _ hx)
          · exact childIds_mem_univ store start currentId x (List.mem_of_mem_filter hx))
termination_by ((bfsUniv store start).card - (visited ∩ bfsUniv store start).card, queue.length)
decreasing_by
  · exact Prod.Lex.right _ (Nat.lt_succ_self _)
  · apply Prod.Lex.left
    have hcur : currentId ∈ bfsUniv store start := hq currentId (List.mem_cons_self _ _)
    have hins : insert currentId visited ∩ bfsUniv store start
        = insert currentId (visited ∩ bfsUniv store start) :=
      Finset.insert_inter_of_mem hcur
    have hnotmem : currentId ∉ visited ∩ bfsUniv store start := by
      intro hmem
      exact h (Finset.mem_of_mem_inter_left hmem)
    have hcard : (insert currentId visited ∩ bfsUniv store start).card
        = (visited ∩ bfsUniv store start).card + 1 := by
      rw [hins, Finset.card_insert_of_not_mem hnotmem]
    have hsub : insert currentId (visited ∩ bfsUniv store start) ⊆ bfsUniv store start := by
      intro y hy
      rcases Finset.mem_insert.mp hy with rfl | hy
      · exact hcur
      · exact Finset.mem_of_mem_inter_right hy
    have hlt : (visited ∩ bfsUniv store start).card < (bfsUniv store start).card := by
      have := Finset.card_le_card hsub
      rw [← hins] at this
      omega
    omega

/-- Errors the topology service can raise.  `invariantViolation` is the
failure mode the specification prescribes for cycles. -/
inductive TopoError where
  | notFound
  | invariantViolation
  deriving DecidableEq, Repr

/-- `NetworkService.getNodeIdsInDma`: `NotFound` for an unknown partition,
otherwise the BFS closure of the partition's mainline. -/
def getNodeIdsInDma (store : TopoStore) (partitionId : String) :
    Except TopoError (Finset String) :=
  match store.partitions.find? (fun p => p.id == partitionId) with
  | none => .error .notFound
  | some partition =>
    .ok (bfsCollect store partition.mainlineId ∅ [partition.mainlineId]
      (by intro x hx; rw [List.mem_singleton] at hx; subst hx; exact Finset.mem_insert_self _ _))

/-- Whether the parent graph has a cycle reachable from `start` through the
child relation: witnessed by a repetition along some child path.  For the
concrete counterexample a two-cycle is exhibited directly, so a simple
path-based phrasing suffices: some node reachable from `start` is its own
proper descendant. -/
def childPathMem (store : TopoStore) : String → List String → Prop
  | _, [] => True
  | x, y :: rest => y ∈ childIds store x ∧ childPathMem store y rest

/-- The predicted change of one sensor for a candidate:
`sensitivityValue * estimatedLeakSize`, with absent matrix entries read as
`0` (`predictedChanges.get(sensorId) || 0`). -/
def predictedChangeOf (entries : List (String × ℚ)) (estimatedLeakSize : ℚ)
    (sensorId : String) : ℚ :=
  match entries.lookup sensorId with
  | none => 0
  | some sensitivityValue => sensitivityValue * estimatedLeakSize

/-- The accumulators of the first loop of `calculateLocalizationScore`. -/
structure ScoreAcc where
  sumSquaredDiff : ℚ
  sumObservedSquared : ℚ
  sumPredictedSquared : ℚ
  count : ℕ
  deriving DecidableEq, Repr

/-- One iteration of the first loop: sensors with neither a predicted nor
an observed change are skipped; the rest contribute their squared residual
and squared magnitudes. -/
def scoreAccStep (pred : String → ℚ) (acc : ScoreAcc) (p : String × ℚ) : ScoreAcc :=
  let observedChange := p.2
  let predictedChange := pred p.1
  if predictedChange = 0 ∧ observedChange = 0 then acc
  else
    let diff := observedChange - predictedChange
    { sumSquaredDiff := acc.sumSquaredDiff + diff * diff
      sumObservedSquared := acc.sumObservedSquared + observedChange * observedChange
      sumPredictedSquared := acc.sumPredictedSquared + predictedChange * predictedChange
      count := acc.count + 1 }

/-- The first loop of `calculateLocalizationScore` over the observed
changes. -/
def scoreSums (pred : String → ℚ) (observed : List (String × ℚ)) : ScoreAcc :=
  observed.foldl (scoreAccStep pred)
    { sumSquaredDiff := 0, sumObservedSquared := 0, sumPredictedSquared := 0, count := 0 }

/-- The accumulators of the covariance loop of
`calculateLocalizationScore`. -/
structure VarAcc where
  covariance : ℚ
  varianceObserved : ℚ
  variancePredicted : ℚ
  deriving DecidableEq, Repr

/-- One iteration of the covariance loop; unlike the first loop it visits
every observed sensor, skipped or not. -/
def varAccStep (pred : String → ℚ) (meanObserved meanPredicted : ℚ)
    (acc : VarAcc) (p : String × ℚ) : VarAcc :=
  let obsDiff := p.2 - meanObserved
  let predDiff := pred p.1 - meanPredicted
  { covariance := acc.covariance + obsDiff * predDiff
    varianceObserved := acc.varianceObserved + obsDiff * obsDiff
    variancePredicted := acc.variancePredicted + predDiff * predDiff }

/-- The covariance loop of `calculateLocalizationScore`. -/
def varSums (pred : String → ℚ) (observed : List (String × ℚ))
    (meanObserved meanPredicted : ℚ) : VarAcc :=
  observed.foldl (varAccStep pred meanObserved meanPredicted)
    { covariance := 0, varianceObserved := 0, variancePredicted := 0 }

/-- The plain sum of the observed changes (the `sumObserved` loop; note the
code divides it by the *skip-filtered* count, which the embedding keeps). -/
def observedSum (observed : List (String × ℚ)) : ℚ :=
  observed.foldl (fun acc p => acc + p.2) 0

/-- The plain sum of the predicted changes over all observed sensors. -/
def predictedSum (pred : String → ℚ) (observed : List (String × ℚ)) : ℚ :=
  observed.foldl (fun acc p => acc + pred p.1) 0

/-- `LocalizationService.calculateLocalizationScore`: the RSS-based score
`1 / (1 + RSS)`, blended with the Pearson correlation as
`score * 0.5 + (correlation + 1) * 0.25` when both change vectors have
positive squared sums and positive variances. -/
noncomputable def calculateLocalizationScore (entries : List (String × ℚ))
    (observed : List (String × ℚ)) (estimatedLeakSize : ℚ) : ℝ :=
  if entries.isEmpty then 0
  else
    let pred := predictedChangeOf entries estimatedLeakSize
    let s := scoreSums pred observed
    if s.count = 0 then 0
    else
      let rss := s.sumSquaredDiff / (s.count : ℚ)
      let score : ℚ := 1 / (1 + rss)
      if 0 < s.sumObservedSquared ∧ 0 < s.sumPredictedSquared then
        let n : ℚ := (s.count : ℚ)
        let meanObserved := observedSum observed / n
        let meanPredicted := predictedSum pred observed / n
        let v := varSums pred observed meanObserved meanPredicted
        if 0 < v.varianceObserved ∧ 0 < v.variancePredicted then
          let correlation : ℝ :=
            (v.covariance : ℝ) /
              Real.sqrt ((v.varianceObserved : ℝ) * (v.variancePredicted : ℝ))
          (score : ℝ) * (1 / 2) + (correlation + 1) * (1 / 4)
        else (score : ℝ)
      else (score : ℝ)

/-- The mean residual sum of squares a candidate contributes to its score
(`rss` in the source), `0` when no sensor was counted. -/
def scoreRss (entries : List (String × ℚ)) (observed : List (String × ℚ))
    (estimatedLeakSize : ℚ) : ℚ :=
  let s := scoreSums (predictedChangeOf entries estimatedLeakSize) observed
  if s.count = 0 then 0 else s.sumSquaredDiff / (s.count : ℚ)

/-- The number of sensors the score loop counts for a candidate. -/
def scoreCount (entries : List (String × ℚ)) (observed : List (String × ℚ))
    (estimatedLeakSize : ℚ) : ℕ :=
  (scoreSums (predictedChangeOf entries estimatedLeakSize) observed).count

/-- The Pearson correlation expression of the source (the value used when
both variance guards pass). -/
noncomputable def scoreCorrelation (entries : List (String × ℚ))
    (observed : List (String × ℚ)) (estimatedLeakSize : ℚ) : ℝ :=
  let pred := predictedChangeOf entries estimatedLeakSize
  let s := scoreSums pred observed
  let n : ℚ := (s.count : ℚ)
  let v := varSums pred observed (observedSum observed / n) (predictedSum pred observed / n)
  (v.covariance : ℝ) / Real.sqrt ((v.varianceObserved : ℝ) * (v.variancePredicted : ℝ))

/-- Scales every observed change by `k` (the premise of the localization
monotonicity property). -/
def scaleObserved (k : ℚ) (observed : List (String × ℚ)) : List (String × ℚ) :=
  observed.map (fun p => (p.1, k * p.2))

/-- A scored localization candidate. -/
structure Candidate where
  nodeId : String
  score : ℝ

/-- The comparator `(a, b) => b.score - a.score` of
`localizeLeakForDetection`, as the before-or-tied relation it induces:
`a` may stay before `b` exactly when `b.score ≤ a.score`. -/
noncomputable def candidateLE (a b : Candidate) : Bool :=
  @decide (b.score ≤ a.score) (Classical.propDecidable _)

/-- `candidateScores.sort((a, b) => b.score - a.score)`: a stable sort by
descending score (ECMAScript `Array.prototype.sort` is stable, and the
comparator looks only at scores, so equal-score candidates keep their
relative order). -/
noncomputable def sortCandidates (l : List Candidate) : List Candidate :=
  l.mergeSort candidateLE

/-- A mainline sensor used by the concrete examples. -/
def sensorSM : Sensor :=
  { id := "sm", sensorId := "SM", sensorType := .MAINLINE_FLOW, isActive := true }

/-- Concrete two-node store: mainline `M` (carrying sensor `sm`) feeding
branch `B`; one reading of 8 L/s on `sm`. -/
def storeSimple : Store :=
  { nodes :=
      [ { id := "M", nodeId := "M", nodeType := .MAINLINE, parentId := none,
          sensors := [sensorSM] },
        { id := "B", nodeId := "B", nodeType := .BRANCH, parentId := some "M",
          sensors := [] } ]
    readings := [{ sensorId := "sm", flowValue := 8, timestamp := 0 }] }

/-- Concrete store where sensor `sm` has two readings inside the detection
window `[100000, 400000]`: 10 L/s then 20 L/s, so the windowed mean is 15
while the latest reading is 20. -/
def storeTwoReadings : Store :=
  { nodes :=
      [ { id := "M", nodeId := "M", nodeType := .MAINLINE, parentId := none,
          sensors := [sensorSM] },
        { id := "B", nodeId := "B", nodeType := .BRANCH, parentId := some "M",
          sensors := [] } ]
    readings :=
      [ { sensorId := "sm", flowValue := 10, timestamp := 100000 },
        { sensorId := "sm", flowValue := 20, timestamp := 400000 } ] }

/-- Concrete five-node parent chain `n0 → n1 → n2 → n3 → n4` whose only
MAINLINE, `n4`, sits four parent links above `n0`. -/
def storeDeepChain : Store :=
  { nodes :=
      [ { id := "n0", nodeId := "n0", nodeType := .BRANCH, parentId := some "n1", sensors := [] },
        { id := "n1", nodeId := "n1", nodeType := .BRANCH, parentId := some "n2", sensors := [] },
        { id := "n2", nodeId := "n2", nodeType := .BRANCH, parentId := some "n3", sensors := [] },
        { id := "n3", nodeId := "n3", nodeType := .BRANCH, parentId := some "n4", sensors := [] },
        { id := "n4", nodeId := "n4", nodeType := .MAINLINE, parentId := none, sensors := [] } ]
    readings := [] }

/-- Concrete topology whose parent graph has a two-cycle reachable from the
DMA mainline: `A` is a child of `M` and `M` a child of `A`. -/
def storeTwoCycle : TopoStore :=
  { nodes :=
      [ { id := "M", nodeId := "M", nodeType := .MAINLINE, parentId := some "A", sensors := [] },
        { id := "A", nodeId := "A", nodeType := .BRANCH, parentId := some "M", sensors := [] } ]
    partitions := [{ id := "P", mainlineId := "M" }] }

/-- Sensitivity row of a candidate whose predicted changes match the
observed vector up to a small mismatch on the third sensor. -/
def entriesNear : List (String × ℚ) := [("s1", 1), ("s2", 1), ("s3", 1)]

/-- Sensitivity row of a candidate perfectly correlated with, but ten times
larger than, the observed vector. -/
def entriesFar : List (String × ℚ) := [("s1", 10), ("s2", 10), ("s3", 13)]

/-- The observed change vector of the scaling counterexample. -/
def obsBase : List (String × ℚ) := [("s1", 1), ("s2", 1), ("s3", 13 / 10)]

/-- Tied candidate with the lexicographically smaller id, listed second. -/
noncomputable def candTieA : Candidate := { nodeId := "A", score := 1 / 2 }

/-- Tied candidate with the lexicographically larger id, listed first. -/
noncomputable def candTieB : Candidate := { nodeId := "B", score := 1 / 2 }

/-- The detection row the simple store yields at the default threshold. -/
def detectionSimpleLow : LeakDetection :=
  { nodeId := "B", flowImbalance := 8, severity := .LOW, status := .DETECTED,
    timestamp := 0, timeWindow := some 300, threshold := 5 }

/-- A detection row in `DETECTED` status, for the lifecycle witness. -/
def rowDetected : DetectionRow :=
  { id := "d1", status := .DETECTED, flowImbalance := 8,
    localizedNodeId := none, localizationScore := none, localizedAt := none }

/-- A localization outcome used by the lifecycle witness. -/
def outcomeN7 : LocalizationOutcome :=
  { localizedNodeId := "N7", localizationScore := 9 / 10,
    candidateNodes := [("N7", 9 / 10)] }

/-- The row `localizeLeak` writes back on success. -/
def localizedRow (d : DetectionRow) (result : LocalizationOutcome) (now : ℤ) : DetectionRow :=
  { d with
    localizedNodeId := some result.localizedNodeId
    localizationScore := some result.localizationScore
    localizedAt := some now
    status := .LOCALIZED }

/-- The mass balance the two-reading store yields at the branch node. -/
def balanceTwoReadings : MassBalanceResult :=
  { nodeId := "B", inflow := 20, outflow := 0, imbalance := 20 }

/-- Candidate nodes of the matrix-build counterexample. -/
def cexNodes : List MatrixNode :=
  [{ id := "n1", epanetNodeId := some "E1" }, { id := "n2", epanetNodeId := some "E2" }]

/-- The sensor set of the matrix-build examples. -/
def cexSensors : List MatrixSensor := [{ id := "s1", nodeEpanetId := some "ES" }]

/-- A simulation oracle that succeeds on candidate `E1` and throws on
every other candidate (the caught-and-skipped branch). -/
def cexSim : String → Except String (List (String × ℚ)) :=
  fun epanetId => if epanetId == "E1" then .ok [("ES", 2)] else .error "sim failed"

/-- The action of scaling the change vectors by `k` on the first-loop
accumulators: squared sums pick up `k ^ 2`, the count is untouched. -/
def scaleScoreAcc (k : ℚ) (acc : ScoreAcc) : ScoreAcc :=
  { sumSquaredDiff := k ^ 2 * acc.sumSquaredDiff
    sumObservedSquared := k ^ 2 * acc.sumObservedSquared
    sumPredictedSquared := k ^ 2 * acc.sumPredictedSquared
    count := acc.count }

/-- The action of scaling the change vectors by `k` on the covariance
accumulators. -/
def scaleVarAcc (k : ℚ) (v : VarAcc) : VarAcc :=
  { covariance := k ^ 2 * v.covariance
    varianceObserved := k ^ 2 * v.varianceObserved
    variancePredicted := k ^ 2 * v.variancePredicted }

/-!  ## Theorems  -/

/-- Claim C10: a `LeakDetection` row is persisted only when the imbalance
exceeds the threshold, and its severity matches the threshold table:
CRITICAL above 50, HIGH in (20, 50], MEDIUM in (10, 20], LOW in (θ, 10]. -/
theorem detectLeakAtNode_severity_table (store : Store) (nodeId : String)
    (timestamp : ℤ) (threshold : ℚ) (timeWindow : Option ℕ) (d : LeakDetection)
    (h : detectLeakAtNode store nodeId timestamp threshold timeWindow = .ok (some d)) :
    threshold < d.flowImbalance ∧ d.status = .DETECTED ∧
    (d.severity = .CRITICAL ↔ 50 < d.flowImbalance) ∧
    (d.severity = .HIGH ↔ 20 < d.flowImbalance ∧ d.flowImbalance ≤ 50) ∧
    (d.severity = .MEDIUM ↔ 10 < d.flowImbalance ∧ d.flowImbalance ≤ 20) ∧
    (d.severity = .LOW ↔ threshold < d.flowImbalance ∧ d.flowImbalance ≤ 10) := by
  unfold detectLeakAtNode at h
  cases hmb : calculateMassBalance store nodeId timestamp with
  | error e => rw [hmb] at h; exact absurd h (by simp)
  | ok massBalance =>
    rw [hmb] at h
    simp only [] at h
    by_cases hth : massBalance.imbalance ≤ threshold
    · rw [if_pos hth] at h
      exact absurd h (by simp)
    · rw [if_neg hth] at h
      have hd := Option.some.inj (Except.ok.inj h)
      subst hd
      push_neg at hth
      refine ⟨hth, rfl, ?_⟩
      dsimp only
      simp only [determineSeverity]
      split_ifs with h50 h20 h10
      · exact ⟨iff_of_true rfl h50,
          iff_of_false (by decide) (fun hc => absurd h50 (not_lt.mpr hc.2)),
          iff_of_false (by decide) (fun hc => by linarith [hc.2]),
          iff_of_false (by decide) (fun hc => by linarith [hc.2])⟩
      · exact ⟨iff_of_false (by decide) h50,
          iff_of_true rfl ⟨h20, not_lt.mp h50⟩,
          iff_of_false (by decide) (fun hc => by linarith [hc.2]),
          iff_of_false (by decide) (fun hc => by linarith [hc.2])⟩
      · exact ⟨iff_of_false (by decide) h50,
          iff_of_false (by decide) (fun hc => absurd hc.1 h20),
          iff_of_true rfl ⟨h10, not_lt.mp h20⟩,
          iff_of_false (by decide) (fun hc => by linarith [hc.2])⟩
      · exact ⟨iff_of_false (by decide) h50,
          iff_of_false (by decide) (fun hc => absurd hc.1 h20),
          iff_of_false (by decide) (fun hc => absurd hc.1 h10),
          iff_of_true rfl ⟨hth, not_lt.mp h10⟩⟩

/-- Witness for C10: on the simple store the branch node shows an 8 L/s
imbalance against the default 5 L/s threshold and is persisted as LOW. -/
theorem detectLeakAtNode_severity_table_witness :
    (5 : ℚ) < detectionSimpleLow.flowImbalance ∧
    detectionSimpleLow.status = .DETECTED ∧
    (detectionSimpleLow.severity = .CRITICAL ↔ 50 < detectionSimpleLow.flowImbalance) ∧
    (detectionSimpleLow.severity = .HIGH ↔
      20 < detectionSimpleLow.flowImbalance ∧ detectionSimpleLow.flowImbalance ≤ 50) ∧
    (detectionSimpleLow.severity = .MEDIUM ↔
      10 < detectionSimpleLow.flowImbalance ∧ detectionSimpleLow.flowImbalance ≤ 20) ∧
    (detectionSimpleLow.severity = .LOW ↔
      (5 : ℚ) < detectionSimpleLow.flowImbalance ∧ detectionSimpleLow.flowImbalance ≤ 10) :=
  detectLeakAtNode_severity_table storeSimple "B" 0 5 (some 300) detectionSimpleLow (by with_unfolding_all rfl)

theorem setBaseDemand_roundtrip (st : EngineState) (idx : ℤ) (v : ℚ) :
    (setBaseDemand (setBaseDemand st idx v) idx (st.baseDemand idx)).baseDemand
      = st.baseDemand := by
  funext i
  simp only [setBaseDemand]
  split_ifs with hi
  · subst hi; rfl
  · rfl

/-- Claim C8: `runLeakSimulation` restores the leak node's original base
demand on every exit path — invalid leak size, unknown node, failed solve
and successful solve alike — so the engine state later simulations observe
is unchanged. -/
theorem runLeakSimulation_restores_base_demand (nodeIndexOf : String → ℤ)
    (solve : EngineState → Option (ℤ → ℚ)) (st : EngineState)
    (leakNodeId : String) (leakSize : ℚ) (sensorNodeIds : List String) :
    ((runLeakSimulation nodeIndexOf solve st leakNodeId leakSize sensorNodeIds).2).baseDemand
      = st.baseDemand := by
  unfold runLeakSimulation
  by_cases h1 : leakSize ≤ 0
  · rw [if_pos h1]
  · rw [if_neg h1]
    by_cases h2 : nodeIndexOf leakNodeId ≤ 0
    · rw [if_pos h2]
    · rw [if_neg h2]
      dsimp only
      cases hsolve : solve (setBaseDemand st (nodeIndexOf leakNodeId)
          (st.baseDemand (nodeIndexOf leakNodeId) + leakSize)) with
      | none => exact setBaseDemand_roundtrip st (nodeIndexOf leakNodeId) _
      | some demand => exact setBaseDemand_roundtrip st (nodeIndexOf leakNodeId) _

/-- Claim C9: `localizeLeak` rejects any detection that is not in
`DETECTED` status, leaves the detection table untouched on every error
path (so a failed localization keeps the status `DETECTED`), and on
success writes back the localized fields with status `LOCALIZED`. -/
theorem localizeLeak_lifecycle (db : List DetectionRow)
    (localization : DetectionRow → Except String LocalizationOutcome)
    (detectionId : String) (now : ℤ) (d : DetectionRow)
    (result : LocalizationOutcome)
    (hfind : db.find? (fun x => x.id == detectionId) = some d) :
    ((localizeLeak db localization detectionId now).1.isOk = true →
      d.status = .DETECTED) ∧
    (d.status ≠ .DETECTED →
      localizeLeak db localization detectionId now = (.error "not in DETECTED status", db)) ∧
    ((localizeLeak db localization detectionId now).1.isOk = false →
      (localizeLeak db localization detectionId now).2 = db) ∧
    (d.status = .DETECTED → localization d = .ok result →
      localizeLeak db localization detectionId now =
        (.ok (localizedRow d result now),
         db.map (fun x => if x.id == detectionId then localizedRow d result now else x))) ∧
    (localizedRow d result now).status = .LOCALIZED := by
  unfold localizeLeak
  rw [hfind]
  simp only []
  by_cases hst : d.status = .DETECTED
  · rw [if_neg (by simp [hst])]
    cases hloc : localization d with
    | error e =>
      refine ⟨?_, fun hc => absurd hst hc, fun _ => rfl, ?_, rfl⟩
      · intro hok; exact hst
      · intro _ hok; exact Except.noConfusion hok
    | ok r =>
      refine ⟨fun _ => hst, fun hc => absurd hst hc, ?_, ?_, rfl⟩
      · intro hbad; simp [Except.isOk, Except.toBool] at hbad
      · intro _ hok
        cases Except.ok.inj hok
        rfl
  · rw [if_pos hst]
    refine ⟨?_, fun _ => rfl, fun _ => rfl, fun hc => absurd hc hst, rfl⟩
    intro hbad; simp [Except.isOk, Except.toBool] at hbad

/-- Witness for C9: a one-row table holding a `DETECTED` detection and a
successful localization outcome exercise the lifecycle theorem. -/
theorem localizeLeak_lifecycle_witness :
    ((localizeLeak [rowDetected] (fun _ => .ok outcomeN7) "d1" 5).1.isOk = true →
      rowDetected.status = .DETECTED) ∧
    (rowDetected.status ≠ .DETECTED →
      localizeLeak [rowDetected] (fun _ => .ok outcomeN7) "d1" 5 =
        (.error "not in DETECTED status", [rowDetected])) ∧
    ((localizeLeak [rowDetected] (fun _ => .ok outcomeN7) "d1" 5).1.isOk = false →
      (localizeLeak [rowDetected] (fun _ => .ok outcomeN7) "d1" 5).2 = [rowDetected]) ∧
    (rowDetected.status = .DETECTED → (fun (_ : DetectionRow) =>
        (Except.ok outcomeN7 : Except String LocalizationOutcome)) rowDetected = .ok outcomeN7 →
      localizeLeak [rowDetected] (fun _ => .ok outcomeN7) "d1" 5 =
        (.ok (localizedRow rowDetected outcomeN7 5),
         [rowDetected].map (fun x =>
           if x.id == "d1" then localizedRow rowDetected outcomeN7 5 else x))) ∧
    (localizedRow rowDetected outcomeN7 5).status = .LOCALIZED :=
  localizeLeak_lifecycle [rowDetected] (fun _ => .ok outcomeN7) "d1" 5 rowDetected outcomeN7
    (by with_unfolding_all rfl)

theorem analyzeDetectionLoop_go
    (localizeOutcome : String → ℕ → Except String LocalizationOutcome)
    (detections : List AnalyzeDetection) (st : AnalyzeLoopState) :
    (detections.foldl (analyzeStep localizeOutcome) st).calls =
      st.calls ++ detections.map (fun d => (d.id, DEFAULT_TIME_WINDOW)) ∧
    (detections.foldl (analyzeStep localizeOutcome) st).entries =
      st.entries ++ detections.map (analyzeEntryFor localizeOutcome) := by
  induction detections generalizing st with
  | nil => simp
  | cons d rest ih =>
    simp only [List.foldl_cons, List.map_cons]
    obtain ⟨ihc, ihe⟩ := ih (analyzeStep localizeOutcome st d)
    constructor
    · rw [ihc]
      unfold analyzeStep
      cases localizeOutcome d.id DEFAULT_TIME_WINDOW <;> simp
    · rw [ihe]
      unfold analyzeStep analyzeEntryFor
      cases localizeOutcome d.id DEFAULT_TIME_WINDOW <;> simp

/-- Amended claim C2: the orchestrator localizes every detection with a
baseline window of `DEFAULT_TIME_WINDOW = 300` seconds (not 3600), and a
per-detection failure is caught: the detection still appears, in order,
without a localization block, while the loop itself always completes. -/
theorem analyzeDetectionLoop_characterization
    (localizeOutcome : String → ℕ → Except String LocalizationOutcome)
    (detections : List AnalyzeDetection) :
    (analyzeDetectionLoop localizeOutcome detections).calls =
      detections.map (fun d => (d.id, DEFAULT_TIME_WINDOW)) ∧
    DEFAULT_TIME_WINDOW = 300 ∧
    (analyzeDetectionLoop localizeOutcome detections).entries =
      detections.map (analyzeEntryFor localizeOutcome) := by
  unfold analyzeDetectionLoop
  obtain ⟨hc, he⟩ := analyzeDetectionLoop_go localizeOutcome detections
    { entries := [], localizedCount := 0, calls := [] }
  exact ⟨by simpa using hc, rfl, by simpa using he⟩

/-- Counterexample for C2: on a concrete failing detection the loop passes
a baseline window of 300 seconds to `localizeLeak`, not the 3600 the claim
states, while the detection is still reported without a localization
block. -/
theorem analyzeDetectionLoop_window_counterexample :
    (analyzeDetectionLoop (fun _ _ => .error "no matrix")
        [{ id := "d1", severity := .LOW }]).calls = [("d1", 300)] ∧
    (analyzeDetectionLoop (fun _ _ => .error "no matrix")
        [{ id := "d1", severity := .LOW }]).entries =
      [{ detectionId := "d1", severity := .LOW, localization := none }] ∧
    (300 : ℕ) ≠ 3600 :=
  ⟨rfl, rfl, by decide⟩

/-- Counterexample for C1: with two readings (10 then 20 L/s) inside the
window, node-scoped inflow is the single latest reading 20, not the
windowed mean 15 prescribed by the specification. -/
theorem getInflowForNode_not_windowed_mean :
    getInflowForNode storeTwoReadings "B" 400000 = 20 ∧
    specInflowWindowed storeTwoReadings "B" 400000 300 = 15 ∧
    getInflowForNode storeTwoReadings "B" 400000 ≠
      specInflowWindowed storeTwoReadings "B" 400000 300 := by
  refine ⟨by with_unfolding_all rfl, by with_unfolding_all rfl, ?_⟩
  intro hc
  rw [show getInflowForNode storeTwoReadings "B" 400000 = 20 from by with_unfolding_all rfl,
    show specInflowWindowed storeTwoReadings "B" 400000 300 = 15 from by with_unfolding_all rfl]
    at hc
  exact absurd hc (by norm_num)

theorem foldl_latestContribution_sum (store : Store) (timestamp : ℤ)
    (sensors : List Sensor) (a : ℚ) :
    sensors.foldl
      (fun acc s =>
        match getLatestReadingForSensor store.readings s.id timestamp with
        | none => acc
        | some v => acc + v) a
      = a + (sensors.map (latestContribution store timestamp)).sum := by
  induction sensors generalizing a with
  | nil => simp
  | cons s rest ih =>
    simp only [List.foldl_cons, List.map_cons, List.sum_cons]
    cases h : getLatestReadingForSensor store.readings s.id timestamp with
    | none =>
      rw [ih]
      simp [latestContribution, h]
    | some v =>
      rw [ih]
      simp only [latestContribution, h, Option.getD_some]
      ring

theorem foldl_children_latest_sum (store : Store) (timestamp : ℤ)
    (children : List NetworkNode) (a : ℚ) :
    children.foldl
      (fun acc child =>
        (activeSensors child).foldl
          (fun acc2 s =>
            match getLatestReadingForSensor store.readings s.id timestamp with
            | none => acc2
            | some v => acc2 + v) acc) a
      = a + (children.map (fun child =>
          ((activeSensors child).map (latestContribution store timestamp)).sum)).sum := by
  induction children generalizing a with
  | nil => simp
  | cons c rest ih =>
    simp only [List.foldl_cons, List.map_cons, List.sum_cons]
    rw [foldl_latestContribution_sum, ih]
    ring

/-- Amended claim C1: the node-scoped mass balance takes, per sensor, the
single latest reading at or before `T` (with no window restriction at
all); the imbalance is the sum of the parent sensors' latest readings
minus the sum of the child sensors' latest readings, not a difference of
windowed means. -/
theorem calculateMassBalance_uses_latest_readings (store : Store) (nodeId : String)
    (timestamp : ℤ) (r : MassBalanceResult)
    (h : calculateMassBalance store nodeId timestamp = .ok r) :
    r.imbalance = specNodeImbalanceLatest store nodeId timestamp := by
  unfold calculateMassBalance at h
  cases hn : findNode store nodeId with
  | none => rw [hn] at h; cases h
  | some node =>
    rw [hn] at h
    simp only [] at h
    have hr := Except.ok.inj h
    subst hr
    dsimp only
    unfold specNodeImbalanceLatest getInflowForNode getOutflowForNode
    rw [hn]
    simp only [Option.bind_some, Option.some_bind]
    cases hp : node.parentId.bind (findNode store) with
    | none =>
      simp only [hp]
      rw [foldl_children_latest_sum]
      ring
    | some parent =>
      simp only [hp]
      rw [foldl_latestContribution_sum, foldl_children_latest_sum]
      ring

/-- Witness for C1 (amended): on the two-reading store the branch balance
is the latest-reading sum 20. -/
theorem calculateMassBalance_uses_latest_readings_witness :
    balanceTwoReadings.imbalance = specNodeImbalanceLatest storeTwoReadings "B" 400000 :=
  calculateMassBalance_uses_latest_readings storeTwoReadings "B" 400000
    balanceTwoReadings (by with_unfolding_all rfl)

/-- Counterexample for C7: in a five-node chain whose only MAINLINE sits
four parent links up, `findMainlineForNode` returns none although a
MAINLINE ancestor exists. -/
theorem findMainlineForNode_deep_counterexample :
    findMainlineForNode storeDeepChain "n0" = none ∧
    parentChainNth storeDeepChain "n0" 4 = some "n4" ∧
    (findNode storeDeepChain "n4").map (fun n => n.nodeType) = some .MAINLINE ∧
    findMainlineForNode storeDeepChain "n0" ≠ some "n4" := by
  refine ⟨by with_unfolding_all rfl, by with_unfolding_all rfl,
    by with_unfolding_all rfl, by with_unfolding_all decide⟩

/-- Amended claim C7: `findMainlineForNode` returns the nearest MAINLINE in
the inclusive parent chain only within the first three parent links (the
nested `include` truncates the ancestry there); any deeper MAINLINE
ancestor yields none. -/
theorem findMainlineForNode_eq_spec_within_four (store : Store) (nodeId : String) :
    findMainlineForNode store nodeId = specMainlineWithin store nodeId 4 := by
  unfold findMainlineForNode specMainlineWithin
  cases h0 : findNode store nodeId with
  | none => rfl
  | some n0 =>
    simp only []
    by_cases ht0 : n0.nodeType = .MAINLINE
    · simp [List.find?, ht0]
    · have ht0b : (n0.nodeType == NodeType.MAINLINE) = false := by
        simp [ht0]
      cases hp0 : n0.parentId with
      | none => simp [List.find?, ht0b, ht0]
      | some pid1 =>
        cases h1 : findNode store pid1 with
        | none => simp [List.find?, ht0b, ht0, specMainlineWithin, h1]
        | some n1 =>
          simp only [Option.some_bind, h1, specMainlineWithin]
          by_cases ht1 : n1.nodeType = .MAINLINE
          · simp [List.find?, ht0b, ht0, ht1]
          · have ht1b : (n1.nodeType == NodeType.MAINLINE) = false := by
              simp [ht1]
            cases hp1 : n1.parentId with
            | none => simp [List.find?, ht0b, ht0, ht1b, ht1]
            | some pid2 =>
              cases h2 : findNode store pid2 with
              | none => simp [List.find?, ht0b, ht0, ht1b, ht1, specMainlineWithin, h2]
              | some n2 =>
                simp only [Option.some_bind, h2, specMainlineWithin]
                by_cases ht2 : n2.nodeType = .MAINLINE
                · simp [List.find?, ht0b, ht0, ht1b, ht1, ht2]
                · have ht2b : (n2.nodeType == NodeType.MAINLINE) = false := by
                    simp [ht2]
                  cases hp2 : n2.parentId with
                  | none => simp [List.find?, ht0b, ht0, ht1b, ht1, ht2b, ht2]
                  | some pid3 =>
                    cases h3 : findNode store pid3 with
                    | none =>
                      simp [List.find?, ht0b, ht0, ht1b, ht1, ht2b, ht2, specMainlineWithin, h3]
                    | some n3 =>
                      simp only [Option.some_bind, h3, specMainlineWithin]
                      by_cases ht3 : n3.nodeType = .MAINLINE
                      · simp [List.find?, ht0b, ht0, ht1b, ht1, ht2b, ht2, ht3]
                      · have ht3b : (n3.nodeType == NodeType.MAINLINE) = false := by
                          simp [ht3]
                        cases hp3 : n3.parentId with
                        | none => simp [List.find?, ht0b, ht0, ht1b, ht1, ht2b, ht2, ht3b, ht3]
                        | some pid4 => simp [List.find?, ht0b, ht0, ht1b, ht1, ht2b, ht2, ht3b, ht3]

theorem entriesForCandidate_keys (networkId : String) (baseline : List (String × ℚ))
    (sensors : List MatrixSensor)
    (simOutcome : String → Except String (List (String × ℚ))) (node : MatrixNode) :
    (entriesForCandidate networkId baseline sensors simOutcome node).map
        (fun e => (e.leakNodeId, e.sensorId)) =
      if candidateSucceeded simOutcome node then
        (sensors.filter (fun s => s.nodeEpanetId.isSome)).map (fun s => (node.id, s.id))
      else [] := by
  unfold entriesForCandidate candidateSucceeded
  cases node.epanetNodeId with
  | none => simp
  | some epanetId =>
    cases hout : simOutcome epanetId with
    | error e => simp [hout]
    | ok leakResults =>
      simp only [hout]
      rw [if_pos trivial]
      induction sensors with
      | nil => simp
      | cons s rest ih =>
        cases hs : s.nodeEpanetId with
        | none => simpa [List.filterMap_cons, hs, List.filter_cons] using ih
        | some sep => simpa [List.filterMap_cons, hs, List.filter_cons] using ih

theorem generateAllEntries_keys_nodup (networkId : String) (baseline : List (String × ℚ))
    (sensors : List MatrixSensor)
    (simOutcome : String → Except String (List (String × ℚ)))
    (nodes : List MatrixNode)
    (hids : (nodes.map (fun n => n.id)).Nodup)
    (hsens : (sensors.map (fun s => s.id)).Nodup) :
    ((generateAllEntries networkId baseline sensors simOutcome nodes).map
      (fun e => (e.leakNodeId, e.sensorId))).Nodup := by
  induction nodes with
  | nil => simp [generateAllEntries]
  | cons n rest ih =>
    rw [List.map_cons, List.nodup_cons] at hids
    unfold generateAllEntries
    rw [List.flatMap_cons, List.map_append]
    apply List.Nodup.append
    · rw [entriesForCandidate_keys]
      split_ifs with hsucc
      · have hfil : ((sensors.filter (fun s => s.nodeEpanetId.isSome)).map
            (fun s => s.id)).Nodup :=
          hsens.sublist (List.Sublist.map _ (List.filter_sublist sensors))
        have hrw : (sensors.filter (fun s => s.nodeEpanetId.isSome)).map
            (fun s => (n.id, s.id)) =
            ((sensors.filter (fun s => s.nodeEpanetId.isSome)).map
              (fun s => s.id)).map (fun i => (n.id, i)) := by
          rw [List.map_map]
          rfl
        rw [hrw]
        exact hfil.map (fun a b hab => by
          simpa using congrArg Prod.snd hab)
      · exact List.nodup_nil
    · exact ih hids.2
    · intro x hx hx2
      rw [entriesForCandidate_keys] at hx
      have hx1 : x.1 = n.id := by
        by_cases hsucc : candidateSucceeded simOutcome n
        · rw [if_pos hsucc] at hx
          obtain ⟨s, _, rfl⟩ := List.mem_map.mp hx
          rfl
        · rw [if_neg hsucc] at hx
          cases hx
      have hx2id : x.1 ∈ rest.map (fun m => m.id) := by
        obtain ⟨e, he, rfl⟩ := List.mem_map.mp hx2
        obtain ⟨m, hm, hem⟩ := List.mem_flatMap.mp he
        have := entriesForCandidate_keys networkId baseline sensors simOutcome m
        have hkey : (e.leakNodeId, e.sensorId) ∈
            (entriesForCandidate networkId baseline sensors simOutcome m).map
              (fun e => (e.leakNodeId, e.sensorId)) :=
          List.mem_map_of_mem _ hem
        rw [this] at hkey
        by_cases hsucc : candidateSucceeded simOutcome m
        · rw [if_pos hsucc] at hkey
          obtain ⟨s, _, hkeq⟩ := List.mem_map.mp hkey
          have : e.leakNodeId = m.id := congrArg Prod.fst hkeq.symm
          rw [this]
          exact List.mem_map_of_mem _ hm
        · rw [if_neg hsucc] at hkey
          cases hkey
      rw [hx1] at hx2id
      exact hids.1 (by simpa using hx2id)

/-- Amended claim C3: after a build into an empty table, the number of
persisted rows is `|C_ok| * |S|` where `C_ok` is the set of candidates
whose leak simulation succeeded and `S` the sensors with EPANET-tagged
host nodes; it equals `|C| * |S|` only when no candidate was skipped, so
a build that logs and skips a failing candidate completes with fewer
rows. -/
theorem sensitivity_matrix_entry_count (networkId : String)
    (baseline : List (String × ℚ)) (sensors : List MatrixSensor)
    (simOutcome : String → Except String (List (String × ℚ)))
    (nodes : List MatrixNode)
    (hids : (nodes.map (fun n => n.id)).Nodup)
    (hsens : (sensors.map (fun s => s.id)).Nodup) :
    persistedEntryCount (generateAllEntries networkId baseline sensors simOutcome nodes) =
      (nodes.filter (candidateSucceeded simOutcome)).length *
        (sensors.filter (fun s => s.nodeEpanetId.isSome)).length := by
  unfold persistedEntryCount
  rw [List.dedup_eq_self.mpr
    (generateAllEntries_keys_nodup networkId baseline sensors simOutcome nodes hids hsens)]
  rw [List.length_map]
  induction nodes with
  | nil => simp [generateAllEntries]
  | cons n rest ih =>
    rw [List.map_cons, List.nodup_cons] at hids
    unfold generateAllEntries
    rw [List.flatMap_cons, List.length_append]
    have hlen : (entriesForCandidate networkId baseline sensors simOutcome n).length =
        if candidateSucceeded simOutcome n then
          (sensors.filter (fun s => s.nodeEpanetId.isSome)).length
        else 0 := by
      have := congrArg List.length
        (entriesForCandidate_keys networkId baseline sensors simOutcome n)
      rw [List.length_map] at this
      rw [this]
      split_ifs <;> simp
    have ihr := ih hids.2
    unfold generateAllEntries at ihr
    rw [ihr, hlen, List.filter_cons]
    by_cases hsucc : candidateSucceeded simOutcome n
    · simp [hsucc, Nat.succ_mul, Nat.add_comm]
    · simp [hsucc]

/-- Witness for C3 (amended): one candidate, one tagged sensor, a
successful simulation: exactly one row is persisted. -/
theorem sensitivity_matrix_entry_count_witness :
    persistedEntryCount (generateAllEntries "net" [("ES", 1)] cexSensors cexSim
        [{ id := "n1", epanetNodeId := some "E1" }]) =
      ([{ id := "n1", epanetNodeId := some "E1" }].filter
          (candidateSucceeded cexSim)).length *
        (cexSensors.filter (fun s => s.nodeEpanetId.isSome)).length :=
  sensitivity_matrix_entry_count "net" [("ES", 1)] cexSensors cexSim
    [{ id := "n1", epanetNodeId := some "E1" }] (by decide) (by decide)

/-- Counterexample for C3: with two EPANET-tagged candidates and one
tagged sensor, a single skipped candidate leaves one persisted row, not
the `|C| * |S| = 2` the claim asserts for a completed build. -/
theorem sensitivity_matrix_skip_counterexample :
    persistedEntryCount (generateAllEntries "net" [("ES", 1)] cexSensors cexSim cexNodes) = 1 ∧
    (cexNodes.filter (fun n => n.epanetNodeId.isSome)).length *
      (cexSensors.filter (fun s => s.nodeEpanetId.isSome)).length = 2 ∧
    (1 : ℕ) ≠ 2 := by
  refine ⟨by with_unfolding_all rfl, by with_unfolding_all rfl, by decide⟩

theorem candidateLE_trans : ∀ (a b c : Candidate),
    candidateLE a b → candidateLE b c → candidateLE a c := by
  intro a b c hab hbc
  simp only [candidateLE, decide_eq_true_eq] at *
  exact le_trans hbc hab

theorem candidateLE_total : ∀ (a b : Candidate), candidateLE a b || candidateLE b a := by
  intro a b
  simp only [candidateLE, Bool.or_eq_true, decide_eq_true_eq]
  exact le_total b.score a.score

/-- Amended claim C5: the candidate sort is a stable descending sort on
scores with no tie-break of its own: candidates with equal scores keep the
relative order in which the sensitivity-matrix query enumerated them, and
the output is a permutation of the input sorted by descending score. -/
theorem sortCandidates_stable_ties (l : List Candidate) (a b : Candidate)
    (hscore : a.score = b.score) (hsub : List.Sublist [a, b] l) :
    List.Sublist [a, b] (sortCandidates l) ∧
    (sortCandidates l).Pairwise (fun x y => y.score ≤ x.score) ∧
    (sortCandidates l).Perm l := by
  refine ⟨?_, ?_, ?_⟩
  · exact List.pair_sublist_mergeSort candidateLE_trans candidateLE_total
      (by simp [candidateLE, hscore]) hsub
  · have hs := List.sorted_mergeSort candidateLE_trans candidateLE_total l
    exact hs.imp (fun h => by simpa [candidateLE, decide_eq_true_eq] using h)
  · exact List.mergeSort_perm l candidateLE

/-- Witness for C5 (amended): two equal-score candidates listed `B` first
stay in that order through the sort. -/
theorem sortCandidates_stable_ties_witness :
    (List.Sublist [candTieB, candTieA] (sortCandidates [candTieB, candTieA]) ∧
     (sortCandidates [candTieB, candTieA]).Pairwise (fun x y => y.score ≤ x.score) ∧
     (sortCandidates [candTieB, candTieA]).Perm [candTieB, candTieA]) :=
  sortCandidates_stable_ties [candTieB, candTieA] candTieB candTieA rfl (List.Sublist.refl _)

/-- Counterexample for C5: two candidates with exactly equal scores (hence
equal to within 1e-12) enumerated as `B` before `A` are returned as `B`
before `A`, not ordered by node id ascending. -/
theorem sortCandidates_tie_counterexample :
    candTieB.score = candTieA.score ∧
    sortCandidates [candTieB, candTieA] = [candTieB, candTieA] ∧
    sortCandidates [candTieB, candTieA] ≠ [candTieA, candTieB] := by
  have hsorted : sortCandidates [candTieB, candTieA] = [candTieB, candTieA] := by
    apply List.mergeSort_of_sorted
    refine List.pairwise_cons.mpr ⟨?_, List.pairwise_singleton _ _⟩
    intro y hy
    rw [List.mem_singleton] at hy
    subst hy
    simp [candidateLE, candTieA, candTieB]
  refine ⟨rfl, hsorted, ?_⟩
  rw [hsorted]
  intro hc
  have hids := congrArg (fun l => l.map (fun c => c.nodeId)) hc
  simp [candTieA, candTieB] at hids

theorem bfsCollect_subset (store : TopoStore) (start : String)
    (visited : Finset String) (queue : List String)
    (hq : ∀ x ∈ queue, x ∈ bfsUniv store start) :
    visited ⊆ bfsCollect store start visited queue hq := by
  induction visited, queue, hq using bfsCollect.induct store start with
  | case1 visited hq hq2 => rw [bfsCollect]
  | case2 visited c rest hq h hq2 ih =>
    rw [bfsCollect]
    simp only [dif_pos h]
    exact ih
  | case3 visited c rest hq h a1 a2 ih =>
    rename_i ih1
    rw [bfsCollect]
    simp only [dif_neg h]
    exact fun y hy => ih1 (Finset.mem_insert_of_mem hy)

theorem bfsCollect_mem_of_queue (store : TopoStore) (start : String)
    (visited : Finset String) (queue : List String)
    (hq : ∀ x ∈ queue, x ∈ bfsUniv store start) (y : String) (hy : y ∈ queue) :
    y ∈ bfsCollect store start visited queue hq := by
  induction visited, queue, hq using bfsCollect.induct store start with
  | case1 visited hq hq2 => cases hy
  | case2 visited c rest hq h hq2 ih =>
    rw [bfsCollect]
    simp only [dif_pos h]
    rcases List.mem_cons.mp hy with rfl | hy2
    · exact bfsCollect_subset store start visited rest _ h
    · exact ih hy2
  | case3 visited c rest hq h a1 a2 ih =>
    rename_i ih1
    rw [bfsCollect]
    simp only [dif_neg h]
    rcases List.mem_cons.mp hy with rfl | hy2
    · exact bfsCollect_subset store start _ _ _ (Finset.mem_insert_self _ _)
    · exact ih1 (List.mem_append_left _ hy2)

theorem getNodeIdsInDma_ok_of_found (store : TopoStore) (partitionId : String)
    (p : NetworkPartition)
    (hfind : store.partitions.find? (fun q => q.id == partitionId) = some p) :
    ∃ s, getNodeIdsInDma store partitionId = .ok s ∧ p.mainlineId ∈ s := by
  unfold getNodeIdsInDma
  rw [hfind]
  exact ⟨_, rfl, bfsCollect_mem_of_queue store p.mainlineId ∅ [p.mainlineId] _
    p.mainlineId (List.mem_singleton.mpr rfl)⟩

/-- Amended claim C6: the BFS of `getNodeIdsInDma` tracks visited nodes, so
on a parent graph with a cycle reachable from the DMA mainline it
terminates and silently returns the reachable node set (containing the
mainline); it never fails with an `invariantViolation`. -/
theorem getNodeIdsInDma_tolerates_cycles (store : TopoStore) (partitionId : String)
    (p : NetworkPartition)
    (hfind : store.partitions.find? (fun q => q.id == partitionId) = some p) :
    getNodeIdsInDma store partitionId ≠ .error .invariantViolation ∧
    ∃ s, getNodeIdsInDma store partitionId = .ok s ∧ p.mainlineId ∈ s := by
  obtain ⟨s, hs, hm⟩ := getNodeIdsInDma_ok_of_found store partitionId p hfind
  exact ⟨(by rw [hs]; intro hc; cases hc), ⟨s, hs, hm⟩⟩

/-- Witness for C6 (amended): the cyclic two-node store returns the node
set of its DMA without raising an error. -/
theorem getNodeIdsInDma_tolerates_cycles_witness :
    getNodeIdsInDma storeTwoCycle "P" ≠ .error .invariantViolation ∧
    ∃ s, getNodeIdsInDma storeTwoCycle "P" = .ok s ∧
      ({ id := "P", mainlineId := "M" } : NetworkPartition).mainlineId ∈ s :=
  getNodeIdsInDma_tolerates_cycles storeTwoCycle "P"
    { id := "P", mainlineId := "M" } (by rfl)

/-- Counterexample for C6: the parent graph of `storeTwoCycle` has a cycle
reachable from the mainline (`A` is a child of `M` and `M` of `A`), yet
`getNodeIdsInDma` returns a node set instead of failing with
`invariantViolation`. -/
theorem getNodeIdsInDma_cycle_counterexample :
    "A" ∈ childIds storeTwoCycle "M" ∧
    "M" ∈ childIds storeTwoCycle "A" ∧
    (∃ s, getNodeIdsInDma storeTwoCycle "P" = .ok s ∧ "M" ∈ s) ∧
    getNodeIdsInDma storeTwoCycle "P" ≠ .error .invariantViolation := by
  obtain ⟨s, hs, hm⟩ := getNodeIdsInDma_ok_of_found storeTwoCycle "P"
    { id := "P", mainlineId := "M" } (by rfl)
  exact ⟨by decide, by decide, ⟨s, hs, hm⟩, (by rw [hs]; intro hc; cases hc)⟩

theorem predictedChangeOf_scale (entries : List (String × ℚ)) (estimatedLeakSize k : ℚ) :
    predictedChangeOf entries (k * estimatedLeakSize) =
      fun sensorId => k * predictedChangeOf entries estimatedLeakSize sensorId := by
  funext sensorId
  unfold predictedChangeOf
  cases entries.lookup sensorId with
  | none => simp
  | some v => dsimp only; ring

theorem scoreAccStep_scale (pred : String → ℚ) (k : ℚ) (hk : k ≠ 0)
    (acc : ScoreAcc) (p : String × ℚ) :
    scoreAccStep (fun sid => k * pred sid) (scaleScoreAcc k acc) (p.1, k * p.2) =
      scaleScoreAcc k (scoreAccStep pred acc p) := by
  unfold scoreAccStep scaleScoreAcc
  dsimp only
  by_cases hz : pred p.1 = 0 ∧ p.2 = 0
  · rw [if_pos ⟨by rw [hz.1, mul_zero], by rw [hz.2, mul_zero]⟩, if_pos hz]
  · rw [if_neg (by
      intro hc
      exact hz ⟨by
        have := hc.1
        exact (mul_eq_zero.mp this).resolve_left hk, by
        have := hc.2
        exact (mul_eq_zero.mp this).resolve_left hk⟩), if_neg hz]
    simp only [ScoreAcc.mk.injEq]
    refine ⟨by ring, by ring, by ring, ?_⟩
    trivial

theorem scoreSums_scale_aux (pred : String → ℚ) (k : ℚ) (hk : k ≠ 0) :
    ∀ (observed : List (String × ℚ)) (acc : ScoreAcc),
      (scaleObserved k observed).foldl (scoreAccStep (fun sid => k * pred sid))
          (scaleScoreAcc k acc) =
        scaleScoreAcc k (observed.foldl (scoreAccStep pred) acc) := by
  intro observed
  induction observed with
  | nil => intro acc; rfl
  | cons p rest ih =>
    intro acc
    simp only [scaleObserved, List.map_cons, List.foldl_cons]
    rw [scoreAccStep_scale pred k hk acc p]
    have := ih (scoreAccStep pred acc p)
    simpa [scaleObserved] using this

theorem scoreSums_scale (entries : List (String × ℚ)) (observed : List (String × ℚ))
    (estimatedLeakSize k : ℚ) (hk : k ≠ 0) :
    scoreSums (predictedChangeOf entries (k * estimatedLeakSize)) (scaleObserved k observed) =
      scaleScoreAcc k (scoreSums (predictedChangeOf entries estimatedLeakSize) observed) := by
  unfold scoreSums
  rw [predictedChangeOf_scale entries estimatedLeakSize k]
  have h0 : (⟨0, 0, 0, 0⟩ : ScoreAcc) = scaleScoreAcc k ⟨0, 0, 0, 0⟩ := by
    simp [scaleScoreAcc]
  conv_lhs => rw [h0]
  rw [scoreSums_scale_aux (predictedChangeOf entries estimatedLeakSize) k hk]

theorem observedSum_scale_aux (k : ℚ) :
    ∀ (observed : List (String × ℚ)) (a : ℚ),
      (scaleObserved k observed).foldl (fun acc p => acc + p.2) (k * a) =
        k * observed.foldl (fun acc p => acc + p.2) a := by
  intro observed
  induction observed with
  | nil => intro a; rfl
  | cons p rest ih =>
    intro a
    simp only [scaleObserved, List.map_cons, List.foldl_cons]
    have : k * a + k * p.2 = k * (a + p.2) := by ring
    rw [this]
    simpa [scaleObserved] using ih (a + p.2)

theorem observedSum_scale (k : ℚ) (observed : List (String × ℚ)) :
    observedSum (scaleObserved k observed) = k * observedSum observed := by
  unfold observedSum
  have := observedSum_scale_aux k observed 0
  simpa using this

theorem predictedSum_scale_aux (pred : String → ℚ) (k : ℚ) :
    ∀ (observed : List (String × ℚ)) (a : ℚ),
      (scaleObserved k observed).foldl (fun acc p => acc + k * pred p.1) (k * a) =
        k * observed.foldl (fun acc p => acc + pred p.1) a := by
  intro observed
  induction observed with
  | nil => intro a; rfl
  | cons p rest ih =>
    intro a
    simp only [scaleObserved, List.map_cons, List.foldl_cons]
    have : k * a + k * pred p.1 = k * (a + pred p.1) := by ring
    rw [this]
    simpa [scaleObserved] using ih (a + pred p.1)

theorem predictedSum_scale (entries : List (String × ℚ)) (observed : List (String × ℚ))
    (estimatedLeakSize k : ℚ) :
    predictedSum (predictedChangeOf entries (k * estimatedLeakSize)) (scaleObserved k observed) =
      k * predictedSum (predictedChangeOf entries estimatedLeakSize) observed := by
  unfold predictedSum
  rw [predictedChangeOf_scale entries estimatedLeakSize k]
  have := predictedSum_scale_aux (predictedChangeOf entries estimatedLeakSize) k observed 0
  simpa using this

theorem varAccStep_scale (pred : String → ℚ) (k meanObserved meanPredicted : ℚ)
    (v : VarAcc) (p : String × ℚ) :
    varAccStep (fun sid => k * pred sid) (k * meanObserved) (k * meanPredicted)
        (scaleVarAcc k v) (p.1, k * p.2) =
      scaleVarAcc k (varAccStep pred meanObserved meanPredicted v p) := by
  unfold varAccStep scaleVarAcc
  simp only [VarAcc.mk.injEq]
  refine ⟨by ring, by ring, by ring⟩

theorem varSums_scale_aux (pred : String → ℚ) (k meanObserved meanPredicted : ℚ) :
    ∀ (observed : List (String × ℚ)) (v : VarAcc),
      (scaleObserved k observed).foldl
          (varAccStep (fun sid => k * pred sid) (k * meanObserved) (k * meanPredicted))
          (scaleVarAcc k v) =
        scaleVarAcc k (observed.foldl (varAccStep pred meanObserved meanPredicted) v) := by
  intro observed
  induction observed with
  | nil => intro v; rfl
  | cons p rest ih =>
    intro v
    simp only [scaleObserved, List.map_cons, List.foldl_cons]
    rw [varAccStep_scale pred k meanObserved meanPredicted v p]
    simpa [scaleObserved] using ih (varAccStep pred meanObserved meanPredicted v p)

theorem varSums_scale (entries : List (String × ℚ)) (observed : List (String × ℚ))
    (estimatedLeakSize k meanObserved meanPredicted : ℚ) :
    varSums (predictedChangeOf entries (k * estimatedLeakSize)) (scaleObserved k observed)
        (k * meanObserved) (k * meanPredicted) =
      scaleVarAcc k (varSums (predictedChangeOf entries estimatedLeakSize) observed
        meanObserved meanPredicted) := by
  unfold varSums
  rw [predictedChangeOf_scale entries estimatedLeakSize k]
  have h0 : (⟨0, 0, 0⟩ : VarAcc) = scaleVarAcc k ⟨0, 0, 0⟩ := by
    simp [scaleVarAcc]
  conv_lhs => rw [h0]
  rw [varSums_scale_aux (predictedChangeOf entries estimatedLeakSize) k
    meanObserved meanPredicted]

/-- Amended claim C4: scaling every observed change by `k > 0` and the
estimated leak size by `k` leaves the set of counted sensors unchanged,
multiplies each candidate's mean residual sum of squares by `k ^ 2` (so the
relative RSS order of any two candidates — hence the order of their
`1 / (1 + RSS)` components — is preserved), and leaves each candidate's
Pearson correlation unchanged; the combined score ranking, however, is not
preserved in general (see the counterexample). -/
theorem localization_score_scaling (entries entries2 observed : List (String × ℚ))
    (estimatedLeakSize k : ℚ) (hk : 0 < k) :
    scoreCount entries (scaleObserved k observed) (k * estimatedLeakSize) =
      scoreCount entries observed estimatedLeakSize ∧
    scoreRss entries (scaleObserved k observed) (k * estimatedLeakSize) =
      k ^ 2 * scoreRss entries observed estimatedLeakSize ∧
    scoreCorrelation entries (scaleObserved k observed) (k * estimatedLeakSize) =
      scoreCorrelation entries observed estimatedLeakSize ∧
    (scoreRss entries (scaleObserved k observed) (k * estimatedLeakSize) ≤
        scoreRss entries2 (scaleObserved k observed) (k * estimatedLeakSize) ↔
      scoreRss entries observed estimatedLeakSize ≤
        scoreRss entries2 observed estimatedLeakSize) := by
  have hk0 : k ≠ 0 := ne_of_gt hk
  have hcount : ∀ e : List (String × ℚ),
      scoreCount e (scaleObserved k observed) (k * estimatedLeakSize) =
        scoreCount e observed estimatedLeakSize := by
    intro e
    unfold scoreCount
    rw [scoreSums_scale e observed estimatedLeakSize k hk0]
    rfl
  have hrss : ∀ e : List (String × ℚ),
      scoreRss e (scaleObserved k observed) (k * estimatedLeakSize) =
        k ^ 2 * scoreRss e observed estimatedLeakSize := by
    intro e
    unfold scoreRss
    rw [scoreSums_scale e observed estimatedLeakSize k hk0]
    by_cases hc : (scoreSums (predictedChangeOf e estimatedLeakSize) observed).count = 0
    · rw [if_pos (by simpa [scaleScoreAcc] using hc), if_pos hc, mul_zero]
    · rw [if_neg (by simpa [scaleScoreAcc] using hc), if_neg hc]
      simp only [scaleScoreAcc]
      ring
  refine ⟨hcount entries, hrss entries, ?_, ?_⟩
  · unfold scoreCorrelation
    dsimp only
    rw [scoreSums_scale entries observed estimatedLeakSize k hk0,
      observedSum_scale k observed,
      predictedSum_scale entries observed estimatedLeakSize k]
    simp only [scaleScoreAcc]
    rw [mul_div_assoc, mul_div_assoc]
    rw [varSums_scale entries observed estimatedLeakSize k]
    set v := varSums (predictedChangeOf entries estimatedLeakSize) observed
      (observedSum observed /
        ((scoreSums (predictedChangeOf entries estimatedLeakSize) observed).count : ℚ))
      (predictedSum (predictedChangeOf entries estimatedLeakSize) observed /
        ((scoreSums (predictedChangeOf entries estimatedLeakSize) observed).count : ℚ)) with hv
    simp only [scaleVarAcc]
    push_cast
    rw [show ((k : ℝ) ^ 2 * (v.varianceObserved : ℝ)) * ((k : ℝ) ^ 2 * (v.variancePredicted : ℝ))
        = ((k : ℝ) ^ 2) ^ 2 * ((v.varianceObserved : ℝ) * (v.variancePredicted : ℝ)) from by ring]
    rw [Real.sqrt_mul (by positivity), Real.sqrt_sq (by positivity)]
    exact mul_div_mul_left _ _ (by positivity)
  · rw [hrss entries, hrss entries2]
    constructor
    · intro hle
      have hk2 : (0 : ℚ) < k ^ 2 := by positivity
      exact le_of_mul_le_mul_left hle hk2
    · intro hle
      have hk2 : (0 : ℚ) ≤ k ^ 2 := by positivity
      exact mul_le_mul_of_nonneg_left hle hk2

/-- Witness for C4 (amended): the scaling relations instantiated at a
concrete one-sensor configuration with `k = 2`. -/
theorem localization_score_scaling_witness :
    (0 : ℚ) < 2 ∧
    (scoreCount [("a", 1)] (scaleObserved 2 [("a", 3)]) (2 * 1) =
        scoreCount [("a", 1)] [("a", 3)] 1 ∧
      scoreRss [("a", 1)] (scaleObserved 2 [("a", 3)]) (2 * 1) =
        2 ^ 2 * scoreRss [("a", 1)] [("a", 3)] 1 ∧
      scoreCorrelation [("a", 1)] (scaleObserved 2 [("a", 3)]) (2 * 1) =
        scoreCorrelation [("a", 1)] [("a", 3)] 1 ∧
      (scoreRss [("a", 1)] (scaleObserved 2 [("a", 3)]) (2 * 1) ≤
          scoreRss [("a", 2)] (scaleObserved 2 [("a", 3)]) (2 * 1) ↔
        scoreRss [("a", 1)] [("a", 3)] 1 ≤ scoreRss [("a", 2)] [("a", 3)] 1)) :=
  ⟨by norm_num,
   localization_score_scaling [("a", 1)] [("a", 2)] [("a", 3)] 1 2 (by norm_num)⟩

theorem scoreNear_base :
    calculateLocalizationScore entriesNear obsBase 1 = ((100 / 103 : ℚ) : ℝ) := by
  unfold calculateLocalizationScore
  rw [if_neg (by decide)]
  dsimp only
  have hs : scoreSums (predictedChangeOf entriesNear 1) obsBase =
      ⟨9 / 100, 369 / 100, 3, 3⟩ := by with_unfolding_all rfl
  rw [hs]
  dsimp only
  rw [if_neg (by decide), if_pos (by constructor <;> norm_num)]
  have hv : varSums (predictedChangeOf entriesNear 1) obsBase
      (observedSum obsBase / ((3 : ℕ) : ℚ))
      (predictedSum (predictedChangeOf entriesNear 1) obsBase / ((3 : ℕ) : ℚ)) =
      ⟨0, 3 / 50, 0⟩ := by with_unfolding_all rfl
  rw [hv]
  rw [if_neg (by intro hc; exact absurd hc.2 (by norm_num))]
  norm_num

theorem scoreFar_base :
    calculateLocalizationScore entriesFar obsBase 1 =
      ((100 / 10063 : ℚ) : ℝ) * (1 / 2) + (1 + 1) * (1 / 4) := by
  unfold calculateLocalizationScore
  rw [if_neg (by decide)]
  dsimp only
  have hs : scoreSums (predictedChangeOf entriesFar 1) obsBase =
      ⟨29889 / 100, 369 / 100, 369, 3⟩ := by with_unfolding_all rfl
  rw [hs]
  dsimp only
  rw [if_neg (by decide), if_pos (by constructor <;> norm_num)]
  have hv : varSums (predictedChangeOf entriesFar 1) obsBase
      (observedSum obsBase / ((3 : ℕ) : ℚ))
      (predictedSum (predictedChangeOf entriesFar 1) obsBase / ((3 : ℕ) : ℚ)) =
      ⟨3 / 5, 3 / 50, 6⟩ := by with_unfolding_all rfl
  rw [hv]
  rw [if_pos (by constructor <;> norm_num)]
  dsimp only
  have hsqrt : Real.sqrt (((3 / 50 : ℚ) : ℝ) * ((6 : ℚ) : ℝ)) = 3 / 5 := by
    rw [show ((3 / 50 : ℚ) : ℝ) * ((6 : ℚ) : ℝ) = (3 / 5 : ℝ) ^ 2 by push_cast; norm_num]
    exact Real.sqrt_sq (by norm_num)
  rw [hsqrt]
  push_cast
  norm_num

theorem scoreNear_scaled :
    calculateLocalizationScore entriesNear (scaleObserved 10 obsBase) (10 * 1) =
      ((1 / 4 : ℚ) : ℝ) := by
  unfold calculateLocalizationScore
  rw [if_neg (by decide)]
  dsimp only
  have hs : scoreSums (predictedChangeOf entriesNear (10 * 1)) (scaleObserved 10 obsBase) =
      ⟨9, 369, 300, 3⟩ := by with_unfolding_all rfl
  rw [hs]
  dsimp only
  rw [if_neg (by decide), if_pos (by constructor <;> norm_num)]
  have hv : varSums (predictedChangeOf entriesNear (10 * 1)) (scaleObserved 10 obsBase)
      (observedSum (scaleObserved 10 obsBase) / ((3 : ℕ) : ℚ))
      (predictedSum (predictedChangeOf entriesNear (10 * 1)) (scaleObserved 10 obsBase) /
        ((3 : ℕ) : ℚ)) =
      ⟨0, 6, 0⟩ := by with_unfolding_all rfl
  rw [hv]
  rw [if_neg (by intro hc; exact absurd hc.2 (by norm_num))]
  norm_num

theorem scoreFar_scaled :
    calculateLocalizationScore entriesFar (scaleObserved 10 obsBase) (10 * 1) =
      ((1 / 9964 : ℚ) : ℝ) * (1 / 2) + (1 + 1) * (1 / 4) := by
  unfold calculateLocalizationScore
  rw [if_neg (by decide)]
  dsimp only
  have hs : scoreSums (predictedChangeOf entriesFar (10 * 1)) (scaleObserved 10 obsBase) =
      ⟨29889, 369, 36900, 3⟩ := by with_unfolding_all rfl
  rw [hs]
  dsimp only
  rw [if_neg (by decide), if_pos (by constructor <;> norm_num)]
  have hv : varSums (predictedChangeOf entriesFar (10 * 1)) (scaleObserved 10 obsBase)
      (observedSum (scaleObserved 10 obsBase) / ((3 : ℕ) : ℚ))
      (predictedSum (predictedChangeOf entriesFar (10 * 1)) (scaleObserved 10 obsBase) /
        ((3 : ℕ) : ℚ)) =
      ⟨60, 6, 600⟩ := by with_unfolding_all rfl
  rw [hv]
  rw [if_pos (by constructor <;> norm_num)]
  dsimp only
  have hsqrt : Real.sqrt (((6 : ℚ) : ℝ) * ((600 : ℚ) : ℝ)) = 60 := by
    rw [show ((6 : ℚ) : ℝ) * ((600 : ℚ) : ℝ) = (60 : ℝ) ^ 2 by push_cast; norm_num]
    exact Real.sqrt_sq (by norm_num)
  rw [hsqrt]
  push_cast
  norm_num

/-- Counterexample for C4: multiplying every observed change by `k = 10`
and the estimated leak size by `10` reverses the order of the two
candidates: at scale 1 the near candidate outranks the perfectly
correlated far one, at scale 10 the far candidate wins, so the ranking is
not scale invariant. -/
theorem localization_ranking_scale_counterexample :
    scaleObserved 10 obsBase = [("s1", 10), ("s2", 10), ("s3", 13)] ∧
    calculateLocalizationScore entriesFar obsBase 1 <
      calculateLocalizationScore entriesNear obsBase 1 ∧
    calculateLocalizationScore entriesNear (scaleObserved 10 obsBase) (10 * 1) <
      calculateLocalizationScore entriesFar (scaleObserved 10 obsBase) (10 * 1) := by
  refine ⟨by with_unfolding_all rfl, ?_, ?_⟩
  · rw [scoreFar_base, scoreNear_base]
    push_cast
    norm_num
  · rw [scoreNear_scaled, scoreFar_scaled]
    push_cast
    norm_num

end LeakLoc
